import Mathlib

/-!
Verification of the Slippi playback seek-and-snapshot engine
(`SlippiPlayback.cpp`).

The development shallowly embeds the pure/sequential content of the source:
frame arithmetic (`emod`, the closest-reconstructable-frame computation),
the seek-thread target resolution, clamping, restore and fast-forward
decisions, `resetPlayback`, `clearWatchSettingsStartEnd`, and the
backpressure discipline around `numDiffsProcessing`.  Machine `s32` values
are modelled as `Int`; the C++ truncating `%` is `Int.tmod`; the sentinel
constants `INT_MAX`/`INT_MIN` are their 32-bit values.
-/

/-- `#define FRAME_INTERVAL 900` from the source. -/
def FRAME_INTERVAL : Int := 900

/-- The 32-bit `INT_MAX` sentinel the source uses for "no target". -/
def INT_MAX : Int := 2147483647

/-- The 32-bit `INT_MIN` used to initialise `currentPlaybackFrame`. -/
def INT_MIN : Int := -2147483648

/-- `u32 jumpInterval = 300; // 5 seconds` from `SeekThread`. -/
def jumpInterval : Int := 300

/-- `emod` from the source:
`int r = a % b; return r >= 0 ? r : r + std::abs(b);`
with C++ `%` being the truncating remainder, i.e. `Int.tmod`. -/
def emod (a b : Int) : Int :=
  if Int.tmod a b ≥ 0 then Int.tmod a b else Int.tmod a b + |b|

/-- `closestStateFrame = targetFrameNum - emod(targetFrameNum - PLAYBACK_FIRST_SAVE, FRAME_INTERVAL)`
(SeekThread line computing the nearest snapshot/diff point at or before the
target), generalised over the first frame and the interval exactly as the
spec function `nearestIntervalFrame(frame, firstFrame, interval)`. -/
def nearestIntervalFrame (frame firstFrame interval : Int) : Int :=
  frame - emod (frame - firstFrame) interval

/-- The truncating remainder by a positive modulus is strictly above `-b`. -/
theorem tmod_neg_lower (a : Int) {b : Int} (hb : 0 < b) : -b < Int.tmod a b := by
  rcases a with m | m
  · have h0 : (0 : Int) ≤ Int.tmod (Int.ofNat m) b :=
      Int.tmod_nonneg b (Int.ofNat_nonneg m)
    omega
  · rcases b with n | n
    · have hn : 0 < n := Int.ofNat_lt.mp hb
      have hlt : m.succ % n < n := Nat.mod_lt _ hn
      show -(Int.ofNat n) < Int.tmod (Int.negSucc m) (Int.ofNat n)
      have htm : Int.tmod (Int.negSucc m) (Int.ofNat n) = -(Int.ofNat (m.succ % n)) := rfl
      rw [htm]
      exact neg_lt_neg (Int.ofNat_lt.mpr hlt)
    · exact absurd hb (by exact of_decide_eq_false rfl)

/-- For a positive modulus, the `emod` of the source agrees with the Euclidean
remainder `Int.emod`. -/
theorem emod_eq_emod_of_pos (a : Int) {b : Int} (hb : 0 < b) : emod a b = a % b := by
  have habs : |b| = b := abs_of_pos hb
  have hdecomp : Int.tmod a b + b * a.tdiv b = a := Int.tmod_add_tdiv a b
  have hmod : a % b = Int.tmod a b % b := by
    conv_lhs => rw [← hdecomp]
    exact Int.add_mul_emod_self_left _ _ _
  have hup : Int.tmod a b < b := Int.tmod_lt_of_pos a hb
  have hlow : -b < Int.tmod a b := tmod_neg_lower a hb
  unfold emod
  rw [habs]
  by_cases h : Int.tmod a b ≥ 0
  · rw [if_pos h, hmod, Int.emod_eq_of_lt h hup]
  · rw [if_neg h, hmod]
    have h1 : Int.tmod a b % b = (Int.tmod a b + b * 1) % b :=
      (Int.add_mul_emod_self_left _ _ _).symm
    rw [h1, Int.mul_one, Int.emod_eq_of_lt (by omega) (by omega)]

/-- The `emod` of the source only sees the modulus through `%` and `abs`, so it is
insensitive to the modulus sign. -/
theorem emod_abs (a b : Int) : emod a b = emod a |b| := by
  rcases le_or_lt 0 b with h | h
  · rw [abs_of_nonneg h]
  · have h1 : |b| = -b := abs_of_neg h
    unfold emod
    rw [h1, Int.tmod_neg, abs_neg, abs_of_neg h]

/-- Range of the `emod` of the source for every nonzero modulus: the result lies in
`[0, |b|)` (not in `[0, b)`, which is empty for negative `b`). -/
theorem emod_range (a : Int) {b : Int} (hb : b ≠ 0) :
    0 ≤ emod a b ∧ emod a b < |b| := by
  have habs : 0 < |b| := abs_pos.mpr hb
  rw [emod_abs a b, emod_eq_emod_of_pos a habs]
  exact ⟨Int.emod_nonneg a (by omega), Int.emod_lt_of_pos a habs⟩

/-- C4: the claim states `emod` returns a value in `[0, b)` for every nonzero
`b`, but at `a = -5`, `b = -900` the code returns `895`, which is not below
`-900`; the interval `[0, b)` is empty for negative `b`. -/
theorem emod_negative_modulus_counterexample :
    emod (-5) (-900) = 895 ∧ ¬ emod (-5) (-900) < -900 := by
  constructor
  · rfl
  · decide

/-- C4 (amended): for every `a` and every nonzero `b`, `emod a b` lies in
`[0, |b|)`; in particular for every positive `b` it lies in `[0, b)`, the
standard mathematical modulo, including for negative `a`. -/
theorem emod_positive_range (a : Int) {b : Int} (hb : b ≠ 0) :
    (0 ≤ emod a b ∧ emod a b < |b|) ∧ (0 < b → emod a b < b) := by
  refine ⟨emod_range a hb, fun hpos => ?_⟩
  have h := (emod_range a hb).2
  rwa [abs_of_pos hpos] at h

/-- C4 witness: `emod (-5) 900 = 895` and the amended range holds there. -/
theorem emod_positive_range_witness :
    emod (-5) 900 = 895 ∧
      ((0 ≤ emod (-5) 900 ∧ emod (-5) 900 < |(900 : Int)|) ∧
        (0 < (900 : Int) → emod (-5) 900 < 900)) :=
  ⟨by decide, emod_positive_range (-5) (by decide)⟩

/-- C9: `nearestIntervalFrame` is idempotent for every frame, every first
frame, and every positive interval. -/
theorem nearestIntervalFrame_idempotent (f first interval : Int)
    (h : 0 < interval) :
    nearestIntervalFrame (nearestIntervalFrame f first interval) first interval =
      nearestIntervalFrame f first interval := by
  unfold nearestIntervalFrame
  rw [emod_eq_emod_of_pos _ h, emod_eq_emod_of_pos _ h]
  have key : (f - (f - first) % interval - first) % interval = 0 := by
    have h1 : f - (f - first) % interval - first =
        (f - first) - (f - first) % interval := by ring
    rw [h1, Int.sub_emod, Int.emod_emod_of_dvd _ dvd_rfl, sub_self, Int.zero_emod]
  rw [key, sub_zero]

/-- C9 witness: idempotence at `f = 1000`, `first = -122`, `interval = 900`
(the closest state frame there is `778`). -/
theorem nearestIntervalFrame_idempotent_witness :
    nearestIntervalFrame 1000 (-122) 900 = 778 ∧
      nearestIntervalFrame (nearestIntervalFrame 1000 (-122) 900) (-122) 900 =
        nearestIntervalFrame 1000 (-122) 900 :=
  ⟨by decide, nearestIntervalFrame_idempotent 1000 (-122) 900 (by decide)⟩

/-- Lines resolving the seek target before clamping:
`if (shouldJumpForward) targetFrameNum = currentPlaybackFrame + jumpInterval;`
`if (shouldJumpBack) targetFrameNum = currentPlaybackFrame - jumpInterval;`. -/
def seekPreClampTarget (shouldJumpForward shouldJumpBack : Bool)
    (currentPlaybackFrame targetFrameNum : Int) : Int :=
  let t1 := if shouldJumpForward then currentPlaybackFrame + jumpInterval
            else targetFrameNum
  if shouldJumpBack then currentPlaybackFrame - jumpInterval else t1

/-- `SeekThread` target resolution including the edge-case clamps:
`if (targetFrameNum < Slippi::PLAYBACK_FIRST_SAVE) targetFrameNum = ...;`
`if (targetFrameNum > latestFrame) { targetFrameNum = latestFrame; }`.
The first reconstructable frame `Slippi::PLAYBACK_FIRST_SAVE` is a
parameter: its definition lives outside this translation unit. -/
def resolveTargetFrame (shouldJumpForward shouldJumpBack : Bool)
    (currentPlaybackFrame targetFrameNum latestFrame playbackFirstSave : Int) : Int :=
  let t := seekPreClampTarget shouldJumpForward shouldJumpBack
      currentPlaybackFrame targetFrameNum
  let t2 := if t < playbackFirstSave then playbackFirstSave else t
  if t2 > latestFrame then latestFrame else t2

/-- The state-restore decision of `SeekThread`, lines 217-240 of the source.
`RestoreAction.loadIState` is `State::LoadFromBuffer(iState)`,
`RestoreAction.loadDiff f` is the decode-and-load of `futureDiffs[f]`, and
`RestoreAction.noLoad` is reaching the fast-forward stage with no restore. -/
inductive RestoreAction
  | loadIState
  | loadDiff (frame : Int)
  | noLoad
  deriving DecidableEq

/-- Lines 219-240 of the source: `isLoadingStateOptimal` decides whether to
restore at all; inside, `closestStateFrame <= Slippi::PLAYBACK_FIRST_SAVE`
restores the reference snapshot, otherwise the diff is loaded only when
`futureDiffs.count(closestStateFrame) > 0` — the inner `if` has no `else`,
so an absent diff leads to no restore at all. -/
def seekRestoreAction (targetFrameNum currentPlaybackFrame playbackFirstSave : Int)
    (futureDiffKeys : List Int) : RestoreAction :=
  if targetFrameNum < currentPlaybackFrame ∨
      nearestIntervalFrame targetFrameNum playbackFirstSave FRAME_INTERVAL >
        currentPlaybackFrame then
    if nearestIntervalFrame targetFrameNum playbackFirstSave FRAME_INTERVAL ≤
        playbackFirstSave then
      RestoreAction.loadIState
    else if nearestIntervalFrame targetFrameNum playbackFirstSave FRAME_INTERVAL ∈
        futureDiffKeys then
      RestoreAction.loadDiff
        (nearestIntervalFrame targetFrameNum playbackFirstSave FRAME_INTERVAL)
    else RestoreAction.noLoad
  else RestoreAction.noLoad

/-- Line 243 of the source:
`if (targetFrameNum != closestStateFrame && targetFrameNum != latestFrame)`
guards the whole fast-forward block. -/
def seekDoesFastForward (targetFrameNum closestStateFrame latestFrame : Int) : Bool :=
  targetFrameNum != closestStateFrame && targetFrameNum != latestFrame

/-- C5 counterexample: with the first reconstructable frame at its program
value -122 (the frame-advance hook at line 83 hard-codes the interval check
as `(currentPlaybackFrame + 122) % FRAME_INTERVAL == 0`), an absolute seek to
frame -500 clamps to -122, which is negative at the moment the fast-forward
decision is made — so `targetFrame is never negative` is false of the
program. -/
theorem resolveTargetFrame_negative_counterexample :
    resolveTargetFrame false false 0 (-500) 5000 (-122) = -122 ∧
      resolveTargetFrame false false 0 (-500) 5000 (-122) < 0 := by
  refine ⟨by decide, by decide⟩

/-- C5 (amended): after target resolution, given
`playbackFirstSave ≤ latestFrame`, the resolved target lies in
`[playbackFirstSave, latestFrame]`, and a target outside that range is
silently clamped for every input (the function is total, no error path); the
clamped target can still be negative, because the first reconstructable
frame `Slippi::PLAYBACK_FIRST_SAVE` is -122. -/
theorem resolveTargetFrame_clamped (jf jb : Bool)
    (current target latest first : Int) (hfl : first ≤ latest) :
    first ≤ resolveTargetFrame jf jb current target latest first ∧
      resolveTargetFrame jf jb current target latest first ≤ latest := by
  simp only [resolveTargetFrame, seekPreClampTarget]
  split <;> split <;> split <;> omega

/-- C5 witness: an absolute seek to frame 6000 with `latestFrame = 5000`,
`playbackFirstSave = -122` resolves inside the bounds. -/
theorem resolveTargetFrame_clamped_witness :
    (-122 : Int) ≤ 5000 ∧
      (-122 ≤ resolveTargetFrame false false 0 6000 5000 (-122) ∧
        resolveTargetFrame false false 0 6000 5000 (-122) ≤ 5000) :=
  ⟨by decide, resolveTargetFrame_clamped false false 0 6000 5000 (-122) (by decide)⟩

/-- C7: fast-forward runs only when the resolved target differs from both the
closest state frame and `latestFrame`; and a seek requested past
`latestFrame` is clamped to `latestFrame`, so no fast-forward happens. -/
theorem seekFastForward_guard (jf jb : Bool)
    (current target latest first : Int) (hfl : first ≤ latest) :
    (∀ t c l : Int, seekDoesFastForward t c l = true → t ≠ c ∧ t ≠ l) ∧
      (seekPreClampTarget jf jb current target > latest →
        resolveTargetFrame jf jb current target latest first = latest ∧
          ∀ c : Int,
            seekDoesFastForward
              (resolveTargetFrame jf jb current target latest first) c latest =
              false) := by
  constructor
  · intro t c l h
    simp only [seekDoesFastForward, Bool.and_eq_true, bne_iff_ne] at h
    exact h
  · intro hgt
    have hres : resolveTargetFrame jf jb current target latest first = latest := by
      simp only [resolveTargetFrame]
      split <;> omega
    refine ⟨hres, fun c => ?_⟩
    rw [hres]
    simp [seekDoesFastForward]

/-- C7 witness: absolute seek to 6000 with `latestFrame = 5000`,
`playbackFirstSave = -122`: the pre-clamp target exceeds `latestFrame`, the
resolution lands on `latestFrame`, and the fast-forward guard is false. -/
theorem seekFastForward_guard_witness :
    (-122 : Int) ≤ 5000 ∧ seekPreClampTarget false false 0 6000 > 5000 ∧
      (resolveTargetFrame false false 0 6000 5000 (-122) = 5000 ∧
        seekDoesFastForward (resolveTargetFrame false false 0 6000 5000 (-122))
          (nearestIntervalFrame 6000 (-122) FRAME_INTERVAL) 5000 = false) :=
  ⟨by decide, by decide,
    (seekFastForward_guard false false 0 6000 5000 (-122) (by decide)).2 (by decide)
      |>.imp id fun h => h (nearestIntervalFrame 6000 (-122) FRAME_INTERVAL)⟩

/-- C1 counterexample: target 1000, current frame 2000, first save -122, empty
diff archive.  Restoring is needed (1000 < 2000) and the closest state frame
778 is beyond the first reconstructable frame, yet with the diff absent the
code restores nothing at all — it does not fall back to the reference
snapshot `iState`. -/
theorem seekRestore_absent_diff_counterexample :
    (1000 : Int) < 2000 ∧
      nearestIntervalFrame 1000 (-122) FRAME_INTERVAL = 778 ∧
      (778 : Int) > -122 ∧
      seekRestoreAction 1000 2000 (-122) [] = RestoreAction.noLoad ∧
      seekRestoreAction 1000 2000 (-122) [] ≠ RestoreAction.loadIState := by
  refine ⟨by decide, by decide, by decide, by decide, by decide⟩

/-- C1 (amended): when restoring is needed and the closest state frame is
beyond the first reconstructable frame but the diff archive has no entry for
it, the seek restores nothing (`RestoreAction.noLoad`): the inner `if` has no
`else`, so the engine proceeds straight to the fast-forward decision without
loading the reference snapshot. -/
theorem seekRestore_absent_diff_noLoad
    (target current first : Int) (keys : List Int)
    (hopt : target < current ∨
      nearestIntervalFrame target first FRAME_INTERVAL > current)
    (hbeyond : first < nearestIntervalFrame target first FRAME_INTERVAL)
    (habsent : nearestIntervalFrame target first FRAME_INTERVAL ∉ keys) :
    seekRestoreAction target current first keys = RestoreAction.noLoad := by
  unfold seekRestoreAction
  rw [if_pos hopt, if_neg (not_le.mpr hbeyond), if_neg habsent]

/-- C1 witness: the amended behaviour at target 1000, current 2000, first save
-122, empty archive. -/
theorem seekRestore_absent_diff_noLoad_witness :
    seekRestoreAction 1000 2000 (-122) [] = RestoreAction.noLoad :=
  seekRestore_absent_diff_noLoad 1000 2000 (-122) []
    (Or.inl (by decide)) (by decide) (by decide)

/-- The run state of the host core (`Core::GetState` / `Core::SetState`). -/
inductive CoreState
  | uninit
  | pause
  | run
  | stopping
  deriving DecidableEq

/-- The sequence of `Core::SetState` calls one serviced seek makes, in source
order: `Core::SetState(Core::CORE_PAUSE)` after reading
`paused = (Core::GetState() == Core::CORE_PAUSE)`; inside the fast-forward
block `Core::SetState(Core::CORE_RUN)` then, after the target-frame wait,
`Core::SetState(Core::CORE_PAUSE)`; and finally
`if (!paused) Core::SetState(Core::CORE_RUN)`. -/
def seekCoreStateCalls (initial : CoreState) (doFFW : Bool) : List CoreState :=
  let paused := initial = CoreState.pause
  [CoreState.pause] ++
    (if doFFW then [CoreState.run, CoreState.pause] else []) ++
    (if paused then [] else [CoreState.run])

/-- Applying a sequence of `Core::SetState` calls: the core ends in the last
state set (or stays put when no call is made). -/
def applyCoreCalls (initial : CoreState) (calls : List CoreState) : CoreState :=
  calls.foldl (fun _ c => c) initial

/-- C10: a serviced seek preserves the pre-seek pause state of the host whenever
that state is paused or running, with or without a fast-forward phase. -/
theorem seekCoreState_preserved (initial : CoreState) (doFFW : Bool)
    (h : initial = CoreState.pause ∨ initial = CoreState.run) :
    applyCoreCalls initial (seekCoreStateCalls initial doFFW) = initial := by
  rcases h with h | h <;> subst h <;> cases doFFW <;> decide

/-- C10 witness: a paused core stays paused across a seek that fast-forwards. -/
theorem seekCoreState_preserved_witness :
    applyCoreCalls CoreState.pause (seekCoreStateCalls CoreState.pause true) =
      CoreState.pause :=
  seekCoreState_preserved CoreState.pause true (Or.inl rfl)

/-- The condition variables of the source. -/
inductive CondVarId
  | condVar
  | cv_waitingForTargetFrame
  | cv_processingDiff
  deriving DecidableEq

/-- The `SlippiPlaybackStatus` fields the seek/savestate logic touches.  The
diff archive `futureDiffs` is modelled as an association list from interval
frame to diff bytes. -/
structure SlippiPlaybackStatus where
  shouldJumpBack : Bool
  shouldJumpForward : Bool
  inSlippiPlayback : Bool
  shouldRunThreads : Bool
  isHardFFW : Bool
  isSoftFFW : Bool
  lastFFWFrame : Int
  currentPlaybackFrame : Int
  targetFrameNum : Int
  latestFrame : Int
  futureDiffs : List (Int × String)
  deriving DecidableEq

/-- `SlippiPlaybackStatus::resetPlayback()` (lines 106-129): when
`shouldRunThreads` is true it clears that flag, detaches both threads,
notifies `condVar` (and only `condVar`), and clears `futureDiffs`; in every
case it then clears the jump flags, the FFW flags, `targetFrameNum` (to the
`INT_MAX` sentinel) and `inSlippiPlayback`.  The returned list records which
condition variables the call notifies. -/
def resetPlayback (s : SlippiPlaybackStatus) : SlippiPlaybackStatus × List CondVarId :=
  let step :=
    if s.shouldRunThreads then
      ({ s with shouldRunThreads := false, futureDiffs := [] }, [CondVarId.condVar])
    else (s, [])
  ({ step.1 with
      shouldJumpBack := false
      shouldJumpForward := false
      isHardFFW := false
      isSoftFFW := false
      targetFrameNum := INT_MAX
      inSlippiPlayback := false }, step.2)

/-- Lines 87-103 of `prepareSlippiPlayback`: the frame-advance hook notifies
`cv_waitingForTargetFrame` (the fast-forward wait of `SeekThread`) exactly
when `inSlippiPlayback && frameIndex >= targetFrameNum`. -/
def prepareNotifiesTargetFrame (s : SlippiPlaybackStatus) (frameIndex : Int) : Bool :=
  s.inSlippiPlayback && decide (frameIndex ≥ s.targetFrameNum)

/-- A playback status with threads running and a pending fast-forward wait,
used to exercise `resetPlayback`. -/
def runningSeekState : SlippiPlaybackStatus :=
  { shouldJumpBack := false
    shouldJumpForward := false
    inSlippiPlayback := true
    shouldRunThreads := true
    isHardFFW := true
    isSoftFFW := false
    lastFFWFrame := INT_MIN
    currentPlaybackFrame := 400
    targetFrameNum := 500
    latestFrame := 5000
    futureDiffs := [(778, "diff")] }

/-- C3 counterexample: `resetPlayback` called on a running session notifies
only `condVar`; it does not notify `cv_waitingForTargetFrame`, so a
`SeekThread` blocked in the fast-forward target-frame wait is not woken. -/
theorem resetPlayback_wake_counterexample :
    runningSeekState.shouldRunThreads = true ∧
      (resetPlayback runningSeekState).2 = [CondVarId.condVar] ∧
      CondVarId.cv_waitingForTargetFrame ∉ (resetPlayback runningSeekState).2 := by
  refine ⟨rfl, rfl, by decide⟩

/-- C3 (amended): `resetPlayback` sets `shouldRunThreads` to false, but the
only condition it notifies is `condVar` (the savestate interval wait), and
that only when the threads were running; and after the call the frame-advance
hook can never notify `cv_waitingForTargetFrame` again, because
`inSlippiPlayback` is false — so a `SeekThread` blocked in the fast-forward
wait is not unblocked by `resetPlayback` (the thread is detached instead). -/
theorem resetPlayback_wakes_only_condVar (s : SlippiPlaybackStatus) :
    (resetPlayback s).1.shouldRunThreads = false ∧
      (resetPlayback s).2 =
        (if s.shouldRunThreads then [CondVarId.condVar] else []) ∧
      (∀ f : Int, prepareNotifiesTargetFrame (resetPlayback s).1 f = false) := by
  cases hs : s.shouldRunThreads <;>
    simp [resetPlayback, prepareNotifiesTargetFrame, hs]

/-- A stale playback status: threads already stopped but the diff archive
still populated. -/
def staleDiffState : SlippiPlaybackStatus :=
  { shouldJumpBack := false
    shouldJumpForward := false
    inSlippiPlayback := false
    shouldRunThreads := false
    isHardFFW := false
    isSoftFFW := false
    lastFFWFrame := INT_MIN
    currentPlaybackFrame := 1000
    targetFrameNum := INT_MAX
    latestFrame := 5000
    futureDiffs := [(778, "diff")] }

/-- C6 counterexample: called in a state where `shouldRunThreads` is already
false, `resetPlayback` leaves `futureDiffs` untouched — the archive is only
emptied inside the `if (shouldRunThreads)` block, not regardless of state. -/
theorem resetPlayback_stale_counterexample :
    staleDiffState.shouldRunThreads = false ∧
      (resetPlayback staleDiffState).1.futureDiffs = [(778, "diff")] ∧
      (resetPlayback staleDiffState).1.futureDiffs ≠ [] := by
  refine ⟨rfl, rfl, by decide⟩

/-- C6 (amended): `resetPlayback` stops the worker threads and empties
`futureDiffs` when called while `shouldRunThreads` is true (only then: the
archive is untouched otherwise); in every state it clears the jump flags, the
FFW flags, `targetFrameNum` and `inSlippiPlayback`; and it is idempotent — a
second call immediately after leaves the state unchanged. -/
theorem resetPlayback_idempotent (s : SlippiPlaybackStatus) :
    (resetPlayback (resetPlayback s).1).1 = (resetPlayback s).1 ∧
      (resetPlayback s).1.shouldRunThreads = false ∧
      (resetPlayback s).1.shouldJumpBack = false ∧
      (resetPlayback s).1.shouldJumpForward = false ∧
      (resetPlayback s).1.isHardFFW = false ∧
      (resetPlayback s).1.isSoftFFW = false ∧
      (resetPlayback s).1.targetFrameNum = INT_MAX ∧
      (resetPlayback s).1.inSlippiPlayback = false ∧
      (s.shouldRunThreads = true → (resetPlayback s).1.futureDiffs = []) := by
  cases hs : s.shouldRunThreads <;> simp [resetPlayback, hs]

/-- C6 witness: on a running session the archive is emptied, and the second
call changes nothing. -/
theorem resetPlayback_idempotent_witness :
    (resetPlayback runningSeekState).1.futureDiffs = [] ∧
      (resetPlayback (resetPlayback runningSeekState).1).1 =
        (resetPlayback runningSeekState).1 :=
  ⟨(resetPlayback_idempotent runningSeekState).2.2.2.2.2.2.2.2 rfl,
    (resetPlayback_idempotent runningSeekState).1⟩

/-- `SlippiPlaybackStatus::clearWatchSettingsStartEnd()` (lines 272-283):
when the bounds of the current replay differ from the defaults
(`startFrame != Slippi::GAME_FIRST_FRAME || endFrame != INT_MAX`), lower
`startFrame` to `targetFrameNum` if the target is before it and widen
`endFrame` to `INT_MAX` if the target is past it.  `Slippi::GAME_FIRST_FRAME`
is a parameter: its definition lives outside this translation unit.  Returns
the updated `(startFrame, endFrame)`. -/
def clearWatchSettingsStartEnd (targetFrameNum startFrame endFrame gameFirstFrame : Int) :
    Int × Int :=
  if startFrame ≠ gameFirstFrame ∨ endFrame ≠ INT_MAX then
    (if targetFrameNum < startFrame then targetFrameNum else startFrame,
     if targetFrameNum > endFrame then INT_MAX else endFrame)
  else (startFrame, endFrame)

/-- Outcome of the queue-mode prefix of one `SeekThread` iteration: the
replay bounds after `clearWatchSettingsStartEnd` and the resolved target. -/
structure QueueSeekResult where
  startFrame : Int
  endFrame : Int
  resolvedTarget : Int
  deriving DecidableEq

/-- The queue-mode prefix of one serviced seek, in source order (lines
193-215): `clearWatchSettingsStartEnd` runs first, reading `targetFrameNum`
as it stands when servicing begins — before the jump flags are folded into
the target and before clamping. -/
def seekIterationQueueMode (shouldJumpForward shouldJumpBack : Bool)
    (currentPlaybackFrame targetFrameNum latestFrame playbackFirstSave
      startFrame endFrame gameFirstFrame : Int) : QueueSeekResult :=
  let bounds := clearWatchSettingsStartEnd targetFrameNum startFrame endFrame
      gameFirstFrame
  let resolved := resolveTargetFrame shouldJumpForward shouldJumpBack
      currentPlaybackFrame targetFrameNum latestFrame playbackFirstSave
  ⟨bounds.1, bounds.2, resolved⟩

/-- C8 counterexample: a jump-back seek in queue mode.  Current frame 500,
jump interval 300, so the resolved target is 200, before the configured
start bound 300; but `clearWatchSettingsStartEnd` ran while `targetFrameNum`
was still the `INT_MAX` sentinel, so the start bound stays 300 — the seek is
clamped back into the old window rather than widening it. -/
theorem queueSeek_jumpBack_counterexample :
    (seekIterationQueueMode false true 500 INT_MAX 5000 0 300 INT_MAX
        (-123)).resolvedTarget = 200 ∧
      (seekIterationQueueMode false true 500 INT_MAX 5000 0 300 INT_MAX
        (-123)).resolvedTarget < 300 ∧
      (seekIterationQueueMode false true 500 INT_MAX 5000 0 300 INT_MAX
        (-123)).startFrame = 300 ∧
      (seekIterationQueueMode false true 500 INT_MAX 5000 0 300 INT_MAX
          (-123)).startFrame ≠
        (seekIterationQueueMode false true 500 INT_MAX 5000 0 300 INT_MAX
          (-123)).resolvedTarget := by
  refine ⟨by decide, by decide, by decide, by decide⟩

/-- C8 (amended): in queue mode the bound widening uses `targetFrameNum` as
it stands when servicing begins, before jump resolution and clamping.  For an
absolute seek (target set directly) with non-default bounds, a target before
the start bound lowers it to the target and a target past the end bound
widens the end to `INT_MAX`; but a jump-initiated seek runs the widening
while the target is still the `INT_MAX` sentinel, so the start bound is never
lowered for jumps. -/
theorem queueSeek_widening (jf jb : Bool)
    (current target latest first startF endF gFirst : Int) :
    (seekIterationQueueMode jf jb current target latest first startF endF
        gFirst).startFrame =
        (clearWatchSettingsStartEnd target startF endF gFirst).1 ∧
      (seekIterationQueueMode jf jb current target latest first startF endF
        gFirst).endFrame =
        (clearWatchSettingsStartEnd target startF endF gFirst).2 ∧
      ((startF ≠ gFirst ∨ endF ≠ INT_MAX) → target < startF →
        (clearWatchSettingsStartEnd target startF endF gFirst).1 = target) ∧
      ((startF ≠ gFirst ∨ endF ≠ INT_MAX) → target > endF →
        (clearWatchSettingsStartEnd target startF endF gFirst).2 = INT_MAX) ∧
      (target = INT_MAX → startF ≤ INT_MAX →
        (clearWatchSettingsStartEnd target startF endF gFirst).1 = startF) := by
  refine ⟨rfl, rfl, ?_, ?_, ?_⟩
  · intro hne hlt
    simp only [clearWatchSettingsStartEnd, if_pos hne]
    rw [if_pos hlt]
  · intro hne hgt
    simp only [clearWatchSettingsStartEnd, if_pos hne]
    rw [if_pos hgt]
  · intro hmax hle
    subst hmax
    unfold clearWatchSettingsStartEnd
    split
    · rw [if_neg (by omega)]
    · rfl

/-- C8 witness: an absolute queue-mode seek to frame 100 with bounds
`[300, 4000]` lowers the start bound to 100; an absolute seek to 4500 widens
the end bound to `INT_MAX`; and a jump-initiated seek (target still
`INT_MAX`) leaves the start bound alone. -/
theorem queueSeek_widening_witness :
    (clearWatchSettingsStartEnd 100 300 4000 (-123)).1 = 100 ∧
      (clearWatchSettingsStartEnd 4500 300 4000 (-123)).2 = INT_MAX ∧
      (clearWatchSettingsStartEnd INT_MAX 300 4000 (-123)).1 = 300 :=
  ⟨(queueSeek_widening false false 0 100 5000 0 300 4000 (-123)).2.2.1
      (Or.inl (by decide)) (by decide),
    (queueSeek_widening false false 0 4500 5000 0 300 4000 (-123)).2.2.2.1
      (Or.inl (by decide)) (by decide),
    (queueSeek_widening false false 0 INT_MAX 5000 0 300 4000 (-123)).2.2.2.2
      rfl (by decide)⟩

/-- Line 76 of `prepareSlippiPlayback`: the frame-advance hook blocks while
`shouldRunThreads && numDiffsProcessing > 3`. -/
def diffBackpressureBlocks (shouldRunThreads : Bool) (numDiffsProcessing : Int) : Bool :=
  shouldRunThreads && decide (numDiffsProcessing > 3)

/-- One step of the diff-computation counter `numDiffsProcessing`.  A new
computation can start only after the frame-advance hook passed its
backpressure check — `diffBackpressureBlocks` must be false at the current
value of the counter (the savestate thread launches at most one diff per interval
boundary, and every boundary frame goes through the hook first); the counter
is then incremented by `processDiff` itself (`numDiffsProcessing += 1` at the
start of the computation).  A running computation may finish at any time
(`numDiffsProcessing -= 1`). -/
inductive DiffStep : Int → Int → Prop
  | start (n : Int) : diffBackpressureBlocks true n = false → DiffStep n (n + 1)
  | finish (n : Int) : 0 < n → DiffStep n (n - 1)

/-- Reachability of counter values through `DiffStep`. -/
inductive DiffReach : Int → Int → Prop
  | refl (n : Int) : DiffReach n n
  | tail {a b c : Int} : DiffReach a b → DiffStep b c → DiffReach a c

/-- Four diff computations can be in flight at once: the hook only blocks
while the counter exceeds 3, so a fourth computation starts when exactly
three are running. -/
theorem diffReach_zero_four : DiffReach 0 4 := by
  have s0 : DiffStep 0 1 := by
    have h := DiffStep.start 0 (by decide)
    simpa using h
  have s1 : DiffStep 1 2 := by
    have h := DiffStep.start 1 (by decide)
    simpa using h
  have s2 : DiffStep 2 3 := by
    have h := DiffStep.start 2 (by decide)
    simpa using h
  have s3 : DiffStep 3 4 := by
    have h := DiffStep.start 3 (by decide)
    simpa using h
  exact DiffReach.tail (DiffReach.tail (DiffReach.tail
    (DiffReach.tail (DiffReach.refl 0) s0) s1) s2) s3

/-- C2 counterexample: starting from an idle counter, the execution in which
four diffs start back-to-back is admitted by the guard in the code
(`numDiffsProcessing > 3` blocks only above three), so the number of
in-flight diff computations reaches 4, exceeding the claimed bound K = 3. -/
theorem diffProcessing_counterexample : DiffReach 0 4 ∧ ¬ (4 : Int) ≤ 3 :=
  ⟨diffReach_zero_four, by decide⟩

/-- C2 (amended): the frame-advance hook blocks while `numDiffsProcessing`
exceeds 3, and the counter is incremented by the computation itself after it
starts; so along every execution in which each diff computation starts only
after a hook check at the current counter value, the counter stays within
`[0, 4]` — at most four (not three) diff computations are in flight. -/
theorem diffProcessing_bounded (n : Int) (h : DiffReach 0 n) :
    0 ≤ n ∧ n ≤ 4 := by
  induction h with
  | refl => exact ⟨le_refl 0, by decide⟩
  | tail hr hs ih =>
    cases hs with
    | start hg =>
      simp only [diffBackpressureBlocks, Bool.true_and, decide_eq_false_iff_not,
        not_lt] at hg
      omega
    | finish hm => omega

/-- C2 witness: the bound holds at the reachable counter value 4. -/
theorem diffProcessing_bounded_witness :
    DiffReach 0 4 ∧ (0 ≤ (4 : Int) ∧ (4 : Int) ≤ 4) :=
  ⟨diffReach_zero_four, diffProcessing_bounded 4 diffReach_zero_four⟩
